import Mathlib

/-!
Verification of the zone-generation and reverse-DNS derivation engine of
`scripts/make-dns-records.py`.

The script is embedded shallowly: each Python function becomes a Lean
function, the two module-level dicts (`ptr_records`, `namedconf_entries`)
become explicit insertion-ordered association lists threaded through the
functions, file descriptors become lists of written lines, and exceptions
become an explicit error component.  The parts of the Python standard
library `ipaddress` module that the script calls (`ip_address`,
`IPv4Network`, `reverse_pointer`, `hosts`, `supernet`, `__contains__`)
are modelled from their CPython implementations.  Machine integers do not
occur; all address arithmetic is on `Nat` with explicit masks.
-/

namespace MakeDNSRecords

/-- Python `'.'.join(parts)`. -/
def joinDots : List String → String
  | [] => ""
  | [x] => x
  | x :: xs => x ++ "." ++ joinDots xs

/-- Character class used by Python `str.lstrip('0.')`: the characters of the
argument string, here `'0'` and `'.'`. -/
def isZeroOrDot (c : Char) : Bool := c == '0' || c == '.'

/-- List-level version of Python `s.lstrip('0.')`: drop the longest leading
run of characters drawn from `{'0', '.'}`. -/
def lstrip0DotL (l : List Char) : List Char := l.dropWhile isZeroOrDot

/-- Python `s.lstrip('0.')` as used at lines 112, 122 and 150 of the script. -/
def pyLstrip0Dot (s : String) : String := String.mk (lstrip0DotL s.data)

/-- ASCII uppercase of one character (the record types occurring in this
program are ASCII, for which Python `str.upper` is exactly this map). -/
def pyUpperChar (c : Char) : Char :=
  if 'a' ≤ c ∧ c ≤ 'z' then Char.ofNat (c.toNat - 32) else c

/-- Python `s.upper()`. -/
def pyUpper (s : String) : String := String.mk (s.data.map pyUpperChar)

/-- Splitting a character list on a separator character; the result always
has one more element than the number of separators (so splitting the empty
list gives `[[]]`), matching Python `str.split(sep)`. -/
def splitOnCharL (sep : Char) : List Char → List (List Char)
  | [] => [[]]
  | c :: rest =>
    let r := splitOnCharL sep rest
    if c = sep then [] :: r
    else
      match r with
      | h :: t => (c :: h) :: t
      | [] => [[c]]

/-- Python `s.split(sep)` for a one-character separator. -/
def pySplitOnChar (s : String) (sep : Char) : List String :=
  (splitOnCharL sep s.data).map String.mk

/-- A parsed IP address as returned by `ipaddress.ip_address`: either an
`IPv4Address` or an `IPv6Address`, which are never equal to each other. -/
inductive IPAddr where
  | v4 (n : Nat)
  | v6 (n : Nat)
deriving DecidableEq, Repr

/-- An `ipaddress.IPv4Network`: network address plus prefix length. -/
structure IPv4Net where
  netaddr : Nat
  plen : Nat
deriving DecidableEq, Repr

/-- An `ipaddress.IPv6Network`: network address plus prefix length. -/
structure IPv6Net where
  netaddr : Nat
  plen : Nat
deriving DecidableEq, Repr

/-- Either kind of network (for the shared PTR-zone writer). -/
inductive IPNet where
  | v4 (net : IPv4Net)
  | v6 (net : IPv6Net)
deriving DecidableEq, Repr

/-- The four octets of a 32-bit IPv4 value, most significant first. -/
def v4Octets (n : Nat) : List Nat :=
  [(n >>> 24) % 256, (n >>> 16) % 256, (n >>> 8) % 256, n % 256]

/-- Python `str(IPv4Address(n))`: dotted decimal. -/
def v4str (n : Nat) : String := joinDots ((v4Octets n).map toString)

/-- CPython `IPv4Address._reverse_pointer`:
`'.'.join(str(self).split('.')[::-1]) + '.in-addr.arpa'`. -/
def v4AddrRevPtr (n : Nat) : String :=
  joinDots (((v4Octets n).map toString).reverse) ++ ".in-addr.arpa"

/-- Python `str(IPv4Network(...))`, e.g. `"172.20.229.112/28"`. -/
def v4NetStr (net : IPv4Net) : String :=
  v4str net.netaddr ++ "/" ++ toString net.plen

/-- CPython `_reverse_pointer` applied to an `IPv4Network` object: the
string form (which ends in `"<octet>/<plen>"`) is split on `'.'`, reversed
and rejoined, e.g. `"112/28.229.20.172.in-addr.arpa"`. -/
def v4NetRevPtr (net : IPv4Net) : String :=
  joinDots ((pySplitOnChar (v4NetStr net) '.').reverse) ++ ".in-addr.arpa"

/-- CPython `IPv6Address._reverse_pointer`: the 32 nibbles of the exploded
form, reversed (least significant nibble first), joined with dots, plus
`".ip6.arpa"`.  `Nat.digitChar` gives the same lowercase hex digits as
CPython `'%x'` formatting does per nibble. -/
def v6RevPtr (n : Nat) : String :=
  joinDots (((List.range 32).map fun i => String.mk [Nat.digitChar ((n >>> (4 * i)) % 16)]))
    ++ ".ip6.arpa"

/-- CPython netmask for an IPv4 prefix length: `ALL_ONES ^ (ALL_ONES >> p)`. -/
def v4netmask (p : Nat) : Nat := 0xFFFFFFFF ^^^ (0xFFFFFFFF >>> p)

/-- CPython netmask for an IPv6 prefix length. -/
def v6netmask (p : Nat) : Nat :=
  (2 ^ 128 - 1) ^^^ ((2 ^ 128 - 1) >>> p)

/-- CPython `_BaseNetwork.__contains__`: false across versions, otherwise
`other._ip & self.netmask._ip == self.network_address._ip`. -/
def containsIP : IPNet → IPAddr → Bool
  | .v4 net, .v4 ip => ip &&& v4netmask net.plen == net.netaddr
  | .v6 net, .v6 ip => ip &&& v6netmask net.plen == net.netaddr
  | _, _ => false

/-- CPython `IPv4Network.hosts()`: all addresses strictly between the
network and broadcast addresses, except that a /31 yields both of its two
addresses and a /32 yields its single address. -/
def hostsV4 (net : IPv4Net) : List Nat :=
  if net.plen = 31 then [net.netaddr, net.netaddr + 1]
  else if net.plen = 32 then [net.netaddr]
  else List.range' (net.netaddr + 1) (2 ^ (32 - net.plen) - 2)

/-- CPython `IPv4Network.supernet(new_prefix=newp)` for `newp ≤ plen`:
network address masked with the old netmask shifted left by the
prefix-length difference. -/
def v4supernet (net : IPv4Net) (newp : Nat) : IPv4Net :=
  ⟨net.netaddr &&& (v4netmask net.plen <<< (net.plen - newp)), newp⟩

/-- A well-formed IPv4 network, as guaranteed by the strict
`IPv4Network(...)` constructor: the prefix is at most 32, the address fits
in 32 bits and has no host bits set. -/
def ValidV4Net (net : IPv4Net) : Prop :=
  net.plen ≤ 32 ∧ net.netaddr < 2 ^ 32 ∧ net.netaddr &&& v4netmask net.plen = net.netaddr

instance (net : IPv4Net) : Decidable (ValidV4Net net) := by
  unfold ValidV4Net; infer_instance

/-- ASCII decimal digit test (Python requires `isascii() and isdigit()`). -/
def isAsciiDigit (c : Char) : Bool := '0' ≤ c && c ≤ '9'

/-- ASCII hex digit test (CPython `_HEX_DIGITS`). -/
def isHexDigitChar (c : Char) : Bool :=
  isAsciiDigit c || ('a' ≤ c && c ≤ 'f') || ('A' ≤ c && c ≤ 'F')

/-- Decimal value of an all-digit string. -/
def decValue (s : String) : Nat :=
  s.data.foldl (fun a c => a * 10 + (c.toNat - '0'.toNat)) 0

/-- Hex value of an all-hex-digit string. -/
def hexValue (s : String) : Nat :=
  s.data.foldl (fun a c =>
    a * 16 + (if isAsciiDigit c then c.toNat - '0'.toNat
              else if 'a' ≤ c && c ≤ 'f' then c.toNat - 'a'.toNat + 10
              else c.toNat - 'A'.toNat + 10)) 0

/-- CPython `IPv4Address._parse_octet`: nonempty, ASCII digits only, at
most 3 characters, no leading zero, value at most 255. -/
def parseOctet (s : String) : Option Nat :=
  if s.data = [] then none
  else if ¬ s.data.all isAsciiDigit then none
  else if s.data.length > 3 then none
  else if s ≠ "0" ∧ s.data.headD ' ' = '0' then none
  else if decValue s > 255 then none
  else some (decValue s)

/-- CPython `IPv4Address._ip_int_from_string`: exactly four octets. -/
def parseIPv4 (s : String) : Option Nat :=
  match pySplitOnChar s '.' with
  | [a, b, c, d] => do
    let a ← parseOctet a
    let b ← parseOctet b
    let c ← parseOctet c
    let d ← parseOctet d
    pure (((a * 256 + b) * 256 + c) * 256 + d)
  | _ => none

/-- CPython `IPv6Address._parse_hextet`: hex digits only, between 1 and 4
characters. -/
def parseHextet (s : String) : Option Nat :=
  if s.data.all isHexDigitChar ∧ s.data ≠ [] ∧ s.data.length ≤ 4 then some (hexValue s)
  else none

/-- Lowercase hex rendering, as CPython `'%x' % n`. -/
def hexStr (n : Nat) : String := String.mk (Nat.toDigits 16 n)

/-- Fold a list of hextet strings into an accumulator, 16 bits at a time,
failing if any hextet is malformed. -/
def foldHextets (parts : List String) (acc : Nat) : Option Nat :=
  parts.foldlM (fun a p => (parseHextet p).map fun v => a * 65536 + v) acc

/-- CPython `IPv6Address._ip_int_from_string` (scoped addresses containing
`'%'` are not modelled and rejected).  Follows the CPython algorithm: at
least 3 colon-separated parts, an optional trailing IPv4-style suffix
replaced by two hextets, at most 9 parts, at most one empty part strictly
inside (the `'::'`), leading/trailing empty parts only next to the
`'::'`. -/
def parseIPv6 (s : String) : Option Nat :=
  if s.data = [] then none
  else if s.data.contains '%' then none
  else
    let parts0 := pySplitOnChar s ':'
    if parts0.length < 3 then none
    else
      let withV4 : Option (List String) :=
        if (parts0.getLastD "").data.contains '.' then
          match parseIPv4 (parts0.getLastD "") with
          | none => none
          | some v4 =>
            some (parts0.dropLast ++ [hexStr ((v4 >>> 16) &&& 0xFFFF), hexStr (v4 &&& 0xFFFF)])
        else some parts0
      match withV4 with
      | none => none
      | some parts =>
        let n := parts.length
        if n > 9 then none
        else
          let inner := ((List.range n).filter fun i =>
            decide (0 < i) && decide (i < n - 1) && (parts.getD i "!") == "")
          match inner with
          | [] =>
            if n ≠ 8 then none
            else if parts.getD 0 "" = "" then none
            else if parts.getLastD "" = "" then none
            else foldHextets parts 0
          | [i] =>
            let partsHi0 := i
            let partsLo0 := n - i - 1
            let headEmpty := parts.getD 0 "!" = ""
            let lastEmpty := parts.getLastD "!" = ""
            let partsHi := if headEmpty then partsHi0 - 1 else partsHi0
            let partsLo := if lastEmpty then partsLo0 - 1 else partsLo0
            if headEmpty ∧ partsHi0 - 1 ≠ 0 then none
            else if lastEmpty ∧ partsLo0 - 1 ≠ 0 then none
            else if partsHi + partsLo > 7 then none
            else do
              let hi ← foldHextets (parts.take partsHi) 0
              let v := hi <<< (16 * (8 - partsHi - partsLo))
              foldHextets (parts.drop (n - partsLo)) v
          | _ => none

/-- CPython `ipaddress.ip_address`: try `IPv4Address`, then
`IPv6Address`. -/
def ip_address (s : String) : Option IPAddr :=
  match parseIPv4 s with
  | some n => some (IPAddr.v4 n)
  | none =>
    match parseIPv6 s with
    | some n => some (IPAddr.v6 n)
    | none => none

/-! ## Python dict model

Python dicts preserve insertion order; assigning to an existing key
updates the value in place, keeping the key's original position. -/

/-- `d[k]` lookup / `d.get(k)`: first (and, under the key-uniqueness
invariant, only) binding of `k`. -/
def dget {α β : Type} [DecidableEq α] : List (α × β) → α → Option β
  | [], _ => none
  | (k, v) :: rest, key => if k = key then some v else dget rest key

/-- Replace the binding of a present key in place (the key position of a
Python dict is stable under reassignment; dict keys are unique, so
updating the first binding is updating the binding). -/
def dupdate {α β : Type} [DecidableEq α] : List (α × β) → α → β → List (α × β)
  | [], _, _ => []
  | (k0, v0) :: rest, k, v =>
    if k0 = k then (k, v) :: rest else (k0, v0) :: dupdate rest k v

/-- `d[k] = v`: update in place if `k` is present, else append. -/
def dinsert {α β : Type} [DecidableEq α] (m : List (α × β)) (k : α) (v : β) :
    List (α × β) :=
  if m.any fun p => decide (p.1 = k) then dupdate m k v
  else m ++ [(k, v)]

/-! ## Program state and record writing -/

/-- Errors raised by the script: `ValueError` for a PTR request on a
non-address record type (line 64), `AddressValueError` from address
parsing, `KeyError` from an unknown host in `hosts[...]`. -/
inductive DNSErr where
  | invalidRecordType
  | addressParseError
  | lookupError
deriving DecidableEq, Repr

/-- The script's global mutable state: `ptr_records` (mapping of IPs to
PTR targets, line 28) and `namedconf_entries` (mapping of zones to their
file names, line 29). -/
structure DNSState where
  ptr_records : List (IPAddr × String)
  namedconf_entries : List (String × String)
deriving DecidableEq, Repr

/-- The initial values of the two global dicts. -/
def initialState : DNSState := ⟨[], []⟩

/-- One produced zone file: its `$ORIGIN` name and the record lines
written into it after the SOA preamble. -/
structure ZoneFile where
  zonename : String
  lines : List String
deriving DecidableEq, Repr

/-- Result of `_write_entry`: the file's record lines, the PTR-record
dict, and the exception if one was raised.  On an error the earlier
components still hold the mutations made before the raise. -/
structure WriteResult where
  fd : List String
  ptr : List (IPAddr × String)
  err : Option DNSErr
deriving DecidableEq, Repr

/-- The zone-file name chosen by `get_zone_file`:
`zonename.replace('/', '_') + '.zone'` (line 36). -/
def zone_fname (zonename : String) : String :=
  String.mk (zonename.data.map fun c => if c = '/' then '_' else c) ++ ".zone"

/-- `get_zone_file` (lines 31-52): registers the zone in
`namedconf_entries` and opens a fresh zone file (whose SOA preamble no
claim concerns; the record lines of the new file start empty). -/
def get_zone_file (st : DNSState) (zonename : String) : DNSState :=
  { st with
    namedconf_entries := dinsert st.namedconf_entries zonename (zone_fname zonename) }

/-- The serialized record line `f"{name} IN {rtype} {data}\n"` (line 61). -/
def entry_line (name rtype data : String) : String :=
  name ++ " IN " ++ rtype ++ " " ++ data ++ "\n"

/-- `_write_entry` (lines 54-67).  The record line is written first; only
then is reverse linkage validated (`ValueError` unless the upper-cased
type is A or AAAA) and the address parsed and recorded in
`ptr_records`. -/
def _write_entry (fd : List String) (ptr : List (IPAddr × String))
    (name rtype data : String) (reverse_domain : Option String) : WriteResult :=
  let rt := pyUpper rtype
  let fd1 := fd ++ [entry_line name rt data]
  match reverse_domain with
  | none => ⟨fd1, ptr, none⟩
  | some rd =>
    if rt = "A" ∨ rt = "AAAA" then
      match ip_address data with
      | none => ⟨fd1, ptr, some DNSErr.addressParseError⟩
      | some ipaddr => ⟨fd1, dinsert ptr ipaddr (name ++ "." ++ rd), none⟩
    else ⟨fd1, ptr, some DNSErr.invalidRecordType⟩

/-! ## Forward zone builder -/

/-- One inventory host (`hosts.yml` entry): its addresses and short
name. -/
structure HostData where
  ownip : String
  ownip6 : String
  shortname : String
deriving DecidableEq, Repr

/-- The configuration consumed by the forward builder: the inventory
hosts (in iteration order) and `dns_domain`. -/
structure Config where
  hosts : List (String × HostData)
  dns_domain : String
deriving DecidableEq, Repr

/-- A record spec from `dns_records`, dispatched on its `type` tag
(lines 76-84). -/
inductive RecordData where
  | ansible_host_alias (target : String)
  | ansible_host_record (ip4 ip6 : String)
  | generic (rtype target : String)
deriving DecidableEq, Repr

/-- The body of one iteration of the `records.items()` loop in
`write_forward_zone` (lines 75-84). -/
def writeRecordSpec (cfg : Config) (fd : List String)
    (ptr : List (IPAddr × String)) (domain record_name : String) :
    RecordData → WriteResult
  | .ansible_host_alias target =>
    match dget cfg.hosts target with
    | none => ⟨fd, ptr, some DNSErr.lookupError⟩
    | some hostdata =>
      let r1 := _write_entry fd ptr record_name "A" hostdata.ownip none
      match r1.err with
      | some _ => r1
      | none => _write_entry r1.fd r1.ptr record_name "AAAA" hostdata.ownip6 none
  | .ansible_host_record ip4 ip6 =>
    let r1 := _write_entry fd ptr record_name "A" ip4 (some domain)
    match r1.err with
    | some _ => r1
    | none => _write_entry r1.fd r1.ptr record_name "AAAA" ip6 (some domain)
  | .generic rtype target => _write_entry fd ptr record_name rtype target none

/-- The `records.items()` loop of `write_forward_zone`; an exception
aborts the remaining iterations. -/
def forwardRecordsLoop (cfg : Config) (domain : String) :
    List (String × RecordData) → List String → List (IPAddr × String) → WriteResult
  | [], fd, ptr => ⟨fd, ptr, none⟩
  | (record_name, data) :: rest, fd, ptr =>
    let r := writeRecordSpec cfg fd ptr domain record_name data
    match r.err with
    | some _ => r
    | none => forwardRecordsLoop cfg domain rest r.fd r.ptr

/-- The `for router in hosts` loop of `write_forward_zone`
(lines 86-89): one A and one AAAA record per host, keyed by its short
name, with reverse linkage. -/
def hostRecordsLoop (domain : String) :
    List (String × HostData) → List String → List (IPAddr × String) → WriteResult
  | [], fd, ptr => ⟨fd, ptr, none⟩
  | (_, h) :: rest, fd, ptr =>
    let r1 := _write_entry fd ptr h.shortname "A" h.ownip (some domain)
    match r1.err with
    | some _ => r1
    | none =>
      let r2 := _write_entry r1.fd r1.ptr h.shortname "AAAA" h.ownip6 (some domain)
      match r2.err with
      | some _ => r2
      | none => hostRecordsLoop domain rest r2.fd r2.ptr

/-- `write_forward_zone` (lines 69-90). -/
def write_forward_zone (cfg : Config) (st : DNSState) (domain : String)
    (records : List (String × RecordData)) :
    DNSState × ZoneFile × Option DNSErr :=
  let st0 := get_zone_file st domain
  let r := forwardRecordsLoop cfg domain records [] st0.ptr_records
  match r.err with
  | some e => ({ st0 with ptr_records := r.ptr }, ⟨domain, r.fd⟩, some e)
  | none =>
    if domain = cfg.dns_domain then
      let r2 := hostRecordsLoop domain cfg.hosts r.fd r.ptr
      ({ st0 with ptr_records := r2.ptr }, ⟨domain, r2.fd⟩, r2.err)
    else ({ st0 with ptr_records := r.ptr }, ⟨domain, r.fd⟩, none)

/-! ## Reverse zone builders -/

/-- The Python `reverse_pointer` attribute of a parsed address object. -/
def ipRevPtr : IPAddr → String
  | .v4 n => v4AddrRevPtr n
  | .v6 n => v6RevPtr n

/-- Python `record.endswith('.')`. -/
def endsWithDot (record : String) : Bool :=
  record.data.getLast? == some '.'

/-- `if not record.endswith('.'): record += '.'`. -/
def ensureDot (record : String) : String :=
  if endsWithDot record then record else record ++ "."

/-- One iteration of the `ptr_records.items()` loop of `_write_ptr_zone`
(lines 95-99). -/
def ptrZoneStep (all : List (IPAddr × String)) (ipnet : IPNet)
    (fd : List String) (pr : IPAddr × String) : List String :=
  if containsIP ipnet pr.1 then
    (_write_entry fd all (ipRevPtr pr.1) "PTR" (ensureDot pr.2) none).fd
  else fd

/-- `_write_ptr_zone` (lines 92-100): iterate `ptr_records.items()` in
dict (insertion) order; for each address inside the block write a PTR
record whose owner name is the address's full `reverse_pointer`. -/
def _write_ptr_zone (st : DNSState) (zonename : String) (ipnet : IPNet) :
    DNSState × ZoneFile :=
  let st1 := get_zone_file st zonename
  let fd := st1.ptr_records.foldl (ptrZoneStep st1.ptr_records ipnet) []
  (st1, ⟨zonename, fd⟩)

/-- The truthiness test of `if record := ptr_records.get(ipaddr):`
(line 127): the walrus binding is used only when the target is present
and a non-empty string. -/
def ptr4Hit (ptr : List (IPAddr × String)) (a : Nat) : Option String :=
  match dget ptr (IPAddr.v4 a) with
  | some record => if record = "" then none else some record
  | none => none

/-- `relevant_octets` (line 129): the address's reverse pointer with the
classful zone name and the joining dot sliced off the end. -/
def relevantOctets (classful_zonename : String) (a : Nat) : String :=
  let rp := v4AddrRevPtr a
  String.mk (rp.data.take (rp.data.length - classful_zonename.data.length - 1))

/-- The classful delegation zone's name (lines 118-122): the reverse
pointer of the nearest classful supernet's network address, left-stripped
of `'0'`/`'.'` characters. -/
def classfulZoneName (ipnet : IPv4Net) : String :=
  pyLstrip0Dot (v4AddrRevPtr (v4supernet ipnet (ipnet.plen / 8 * 8)).netaddr)

/-- One iteration of the `for ipaddr in ipnet.hosts()` loop
(lines 126-138), acting on the pair (delegated-zone fd, classful-zone
fd). -/
def ptr4LoopStep (ptr : List (IPAddr × String)) (classful_zonename zonename : String)
    (acc : List String × List String) (a : Nat) : List String × List String :=
  match ptr4Hit ptr a with
  | none => acc
  | some record =>
    let ro := relevantOctets classful_zonename a
    let record := ensureDot record
    let r1 := _write_entry acc.1 ptr ro "PTR" record none
    let cname_record := ro ++ "." ++ zonename ++ "."
    let r2 := _write_entry acc.2 ptr ro "CNAME" cname_record none
    (r1.fd, r2.fd)

/-- The `for ipaddr in ipnet.hosts()` loop of the non-aligned branch
(lines 126-138), producing the (delegated-zone, classful-zone) record
lines.  `get_zone_file` does not touch `ptr_records`, so the dict the
loop reads is the one from before the two zone registrations. -/
def ptr4Pair (ptr : List (IPAddr × String)) (ipnet : IPv4Net) :
    List String × List String :=
  (hostsV4 ipnet).foldl
    (ptr4LoopStep ptr (classfulZoneName ipnet) (v4NetRevPtr ipnet)) ([], [])

/-- `write_ptr4_zone` (lines 102-140), on an already-parsed strict
`IPv4Network`.  Returns the updated state and the zone files produced, in
creation order. -/
def write_ptr4_zone (st : DNSState) (ipnet : IPv4Net) : DNSState × List ZoneFile :=
  if ipnet.plen % 8 = 0 then
    ((_write_ptr_zone st (pyLstrip0Dot (v4AddrRevPtr ipnet.netaddr))
        (IPNet.v4 ipnet)).1,
     [(_write_ptr_zone st (pyLstrip0Dot (v4AddrRevPtr ipnet.netaddr))
        (IPNet.v4 ipnet)).2])
  else
    (get_zone_file (get_zone_file st (v4NetRevPtr ipnet)) (classfulZoneName ipnet),
     [⟨v4NetRevPtr ipnet, (ptr4Pair st.ptr_records ipnet).1⟩,
      ⟨classfulZoneName ipnet, (ptr4Pair st.ptr_records ipnet).2⟩])

/-- `write_ptr6_zone` (lines 142-151), on an already-parsed
`IPv6Network`: zone name from the network address's reverse pointer with
leading `'0'`/`'.'` characters stripped. -/
def write_ptr6_zone (st : DNSState) (ipnet : IPv6Net) : DNSState × ZoneFile :=
  _write_ptr_zone st (pyLstrip0Dot (v6RevPtr ipnet.netaddr)) (IPNet.v6 ipnet)

/-! ## named.conf rendering -/

/-- The global options stanza written by `write_named_conf`
(lines 156-160). -/
def optionsStanza (dns_zones_dir : String) : String :=
  "\noptions \x7b\n    directory \"" ++ dns_zones_dir ++ "\";\n\x7d;\n"

/-- One `zone` stanza (lines 162-166). -/
def zoneStanza (zone fname : String) : String :=
  "\nzone \"" ++ zone ++ "\" \x7b\n    file \"" ++ fname ++ "\";\n\x7d;\n"

/-- `write_named_conf` (lines 153-166): the options stanza followed by
one zone stanza per `namedconf_entries` item, in dict order. -/
def write_named_conf (dns_zones_dir : String) (st : DNSState) : String :=
  optionsStanza dns_zones_dir ++
    String.join (st.namedconf_entries.map fun p => zoneStanza p.1 p.2)

/-- The spec's `entriesWithin(netblock)` query of the PTR Index: the
indexed entries lying inside the block, in the index's iteration
order (this is the iteration pattern of lines 95-96). -/
def entriesWithin (ptr : List (IPAddr × String)) (net : IPNet) :
    List (IPAddr × String) :=
  ptr.filter fun p => containsIP net p.1

/-! ## Spec-side definitions (for comparison with the code) -/

/-- Modelled from the spec's words for comparison: "the network address's
reverse-pointer string with exactly one leading `\"0.\"` component
removed (never more than one)". -/
def specStripOneLeadingZeroOctet (s : String) : String :=
  match s.data with
  | '0' :: '.' :: rest => String.mk rest
  | _ => s

/-- Removal of every leading `"0."` component of a string (zero or
more). -/
def stripZeroOctetsL : List Char → List Char
  | c :: d :: rest =>
    if c = '0' ∧ d = '.' then stripZeroOctetsL rest else c :: d :: rest
  | l => l

/-- String version of `stripZeroOctetsL`. -/
def stripZeroOctets (s : String) : String := String.mk (stripZeroOctetsL s.data)

/-- The distinct elements of a list, in first-occurrence order. -/
def firstOccurrences (l : List String) : List String :=
  l.foldl (fun acc n => if n ∈ acc then acc else acc ++ [n]) []

/-- The addresses of a non-aligned IPv4 block that receive records, with
their PTR targets: the `hosts()` addresses whose PTR-index entry is
present and truthy, in address order. -/
def ptr4Hits (ptr : List (IPAddr × String)) (net : IPv4Net) : List (Nat × String) :=
  (hostsV4 net).filterMap fun a => (ptr4Hit ptr a).map fun r => (a, r)

/-- One call to the record-writing operation, for stating invariants over
arbitrary operation sequences. -/
structure EntryOp where
  name : String
  rtype : String
  data : String
  reverse_domain : Option String
deriving DecidableEq, Repr

/-- Run a sequence of `_write_entry` calls against one file, stopping at
the first raised error (as an uncaught exception would). -/
def runEntryOps : List EntryOp → List String → List (IPAddr × String) → WriteResult
  | [], fd, ptr => ⟨fd, ptr, none⟩
  | op :: rest, fd, ptr =>
    let r := _write_entry fd ptr op.name op.rtype op.data op.reverse_domain
    match r.err with
    | some _ => r
    | none => runEntryOps rest r.fd r.ptr

/-- A run that creates the given zones (in order) through
`get_zone_file`, starting from the given state. -/
def createZones (st : DNSState) (names : List String) : DNSState :=
  names.foldl get_zone_file st

/-- The dot-joined concatenation of a list of components in front of a
tail, used to describe the shape of reverse-pointer strings:
`octetsDots [p, q] t = p ++ "." ++ q ++ "." ++ t` at character level. -/
def octetsDots : List String → List Char → List Char
  | [], tail => tail
  | p :: ps, tail => p.data ++ '.' :: octetsDots ps tail

/-- Whether a string starts with a character that `lstrip('0.')` would
not strip. -/
def headNotZeroDot (s : String) : Bool :=
  match s.data with
  | c :: _ => ! isZeroOrDot c
  | [] => false

/-! ## Dictionary lemmas -/

theorem dget_dupdate {α β : Type} [DecidableEq α] (k : α) (v : β) :
    ∀ m : List (α × β), (m.any fun p => decide (p.1 = k)) = true →
      dget (dupdate m k v) k = some v := by
  intro m
  induction m with
  | nil => intro h; simp at h
  | cons hd tl ih =>
    obtain ⟨k0, v0⟩ := hd
    intro h
    by_cases hk : k0 = k
    · simp [dupdate, dget, hk]
    · have htl : (tl.any fun p => decide (p.1 = k)) = true := by
        simpa [List.any_cons, hk] using h
      simpa [dupdate, dget, hk] using ih htl

theorem dupdate_map_fst {α β : Type} [DecidableEq α] (k : α) (v : β) :
    ∀ m : List (α × β), (dupdate m k v).map Prod.fst = m.map Prod.fst := by
  intro m
  induction m with
  | nil => rfl
  | cons hd tl ih =>
    obtain ⟨k0, v0⟩ := hd
    by_cases hk : k0 = k
    · simp [dupdate, hk]
    · simpa [dupdate, hk] using ih

theorem dget_append_single {α β : Type} [DecidableEq α] (k : α) (v : β) :
    ∀ m : List (α × β), (m.any fun p => decide (p.1 = k)) = false →
      dget (m ++ [(k, v)]) k = some v := by
  intro m
  induction m with
  | nil => intro _; simp [dget]
  | cons hd tl ih =>
    obtain ⟨k0, v0⟩ := hd
    intro h
    have hk : ¬ k0 = k := by
      intro hk
      simp [List.any_cons, hk] at h
    have htl : (tl.any fun p => decide (p.1 = k)) = false := by
      simpa [List.any_cons, hk] using h
    simpa [dget, hk] using ih htl

/-- A dict assignment makes the assigned value retrievable under its
key. -/
theorem dget_dinsert_self {α β : Type} [DecidableEq α]
    (m : List (α × β)) (k : α) (v : β) : dget (dinsert m k v) k = some v := by
  unfold dinsert
  by_cases h : (m.any fun p => decide (p.1 = k)) = true
  · rw [if_pos h]; exact dget_dupdate k v m h
  · rw [if_neg h]
    exact dget_append_single k v m (Bool.eq_false_iff.mpr h)

/-- A dict assignment leaves the key sequence unchanged when the key is
present, and appends the key otherwise. -/
theorem dinsert_map_fst {α β : Type} [DecidableEq α]
    (m : List (α × β)) (k : α) (v : β) :
    (dinsert m k v).map Prod.fst
      = if (m.any fun p => decide (p.1 = k)) = true then m.map Prod.fst
        else m.map Prod.fst ++ [k] := by
  unfold dinsert
  by_cases h : (m.any fun p => decide (p.1 = k)) = true
  · rw [if_pos h, if_pos h]
    exact dupdate_map_fst k v m
  · rw [if_neg h, if_neg h]
    simp

/-- A dict assignment preserves distinctness of the keys. -/
theorem dinsert_keys_nodup {α β : Type} [DecidableEq α]
    {m : List (α × β)} (k : α) (v : β) (h : (m.map Prod.fst).Nodup) :
    ((dinsert m k v).map Prod.fst).Nodup := by
  rw [dinsert_map_fst]
  by_cases hany : (m.any fun p => decide (p.1 = k)) = true
  · rwa [if_pos hany]
  · rw [if_neg hany]
    have hk : k ∉ m.map Prod.fst := by
      intro hmem
      rcases List.mem_map.mp hmem with ⟨p, hp, hpk⟩
      exact hany (List.any_eq_true.mpr ⟨p, hp, by simp [hpk]⟩)
    have hdisj : List.Disjoint (m.map Prod.fst) [k] := by
      intro a ha hain
      rw [List.mem_singleton.mp hain] at ha
      exact hk ha
    exact h.append (List.nodup_singleton k) hdisj

/-! ## Shape lemmas for `_write_entry` -/

/-- The record line is appended to the file unconditionally, whatever
else `_write_entry` does. -/
theorem write_entry_fd (fd : List String) (ptr : List (IPAddr × String))
    (name rtype data : String) (rd : Option String) :
    (_write_entry fd ptr name rtype data rd).fd
      = fd ++ [entry_line name (pyUpper rtype) data] := by
  unfold _write_entry
  cases rd with
  | none => rfl
  | some rdv =>
    dsimp only
    split
    · cases ip_address data <;> rfl
    · rfl

/-- `_write_entry` either leaves the PTR dict unchanged or performs a
single keyed assignment into it. -/
theorem write_entry_ptr_shape (fd : List String) (ptr : List (IPAddr × String))
    (name rtype data : String) (rd : Option String) :
    (_write_entry fd ptr name rtype data rd).ptr = ptr ∨
    ∃ ip rdv, rd = some rdv ∧ ip_address data = some ip ∧
      (_write_entry fd ptr name rtype data rd).ptr
        = dinsert ptr ip (name ++ "." ++ rdv) := by
  unfold _write_entry
  cases rd with
  | none => exact Or.inl rfl
  | some rdv =>
    dsimp only
    split
    · cases hip : ip_address data with
      | none => exact Or.inl rfl
      | some ip => exact Or.inr ⟨ip, rdv, rfl, rfl, rfl⟩
    · exact Or.inl rfl

/-- The error raised by `_write_entry` does not depend on the current
file contents or on the current PTR dict. -/
theorem write_entry_err_indep (fd fd2 : List String)
    (ptr ptr2 : List (IPAddr × String)) (name rtype data : String)
    (rd : Option String) :
    (_write_entry fd ptr name rtype data rd).err
      = (_write_entry fd2 ptr2 name rtype data rd).err := by
  unfold _write_entry
  cases rd with
  | none => rfl
  | some rdv =>
    dsimp only
    split
    · cases ip_address data <;> rfl
    · rfl

/-- `_write_entry` preserves distinctness of the PTR dict's keys. -/
theorem write_entry_keys_nodup (fd : List String) (ptr : List (IPAddr × String))
    (name rtype data : String) (rd : Option String)
    (h : (ptr.map Prod.fst).Nodup) :
    ((_write_entry fd ptr name rtype data rd).ptr.map Prod.fst).Nodup := by
  rcases write_entry_ptr_shape fd ptr name rtype data rd with heq | ⟨ip, rdv, _, _, heq⟩
  · rwa [heq]
  · rw [heq]; exact dinsert_keys_nodup ip _ h

/-- Key distinctness of the PTR dict is an invariant of arbitrary
operation sequences. -/
theorem runEntryOps_keys_nodup :
    ∀ (ops : List EntryOp) (fd : List String) (ptr : List (IPAddr × String)),
      (ptr.map Prod.fst).Nodup →
      ((runEntryOps ops fd ptr).ptr.map Prod.fst).Nodup := by
  intro ops
  induction ops with
  | nil => intro fd ptr h; exact h
  | cons op rest ih =>
    intro fd ptr h
    unfold runEntryOps
    dsimp only
    have hstep := write_entry_keys_nodup fd ptr op.name op.rtype op.data op.reverse_domain h
    cases herr : (_write_entry fd ptr op.name op.rtype op.data op.reverse_domain).err with
    | none => exact ih _ _ hstep
    | some e => exact hstep

/-! ## Theorems on the claims -/

/-- Claim C8: after any sequence of record operations the PTR Index holds
at most one entry per IP address; an assignment for an IP that is already
present replaces the earlier target with the later one; and whether an
operation raises an error is independent of the index's current contents
(in particular an overwrite raises none). -/
theorem c8_ptr_index_single_entry (ops : List EntryOp) :
    ((runEntryOps ops [] []).ptr.map Prod.fst).Nodup ∧
    (∀ (ptr : List (IPAddr × String)) (ip : IPAddr) (tgt : String),
      dget (dinsert ptr ip tgt) ip = some tgt) ∧
    (∀ (fd fd2 : List String) (ptr ptr2 : List (IPAddr × String))
        (name rtype data : String) (rd : Option String),
      (_write_entry fd ptr name rtype data rd).err
        = (_write_entry fd2 ptr2 name rtype data rd).err) := by
  refine ⟨runEntryOps_keys_nodup ops [] [] (by simp), ?_, ?_⟩
  · intro ptr ip tgt; exact dget_dinsert_self ptr ip tgt
  · intro fd fd2 ptr ptr2 name rtype data rd
    exact write_entry_err_indep fd fd2 ptr ptr2 name rtype data rd

/-- Claim C6: a call to `_write_entry` that requests reverse linkage
fails with the invalid-record-type error whenever the upper-cased record
type is neither A nor AAAA; with type A or AAAA (and an address that
parses, as address records carry) it raises no error and registers the
address in the PTR Index under `<name>.<reverse_domain>`. -/
theorem c6_reverse_linkage_type_check (fd : List String)
    (ptr : List (IPAddr × String)) (name rtype data rd : String) :
    (¬ (pyUpper rtype = "A" ∨ pyUpper rtype = "AAAA") →
      (_write_entry fd ptr name rtype data (some rd)).err
        = some DNSErr.invalidRecordType) ∧
    ((pyUpper rtype = "A" ∨ pyUpper rtype = "AAAA") →
      ∀ ip, ip_address data = some ip →
        (_write_entry fd ptr name rtype data (some rd)).err = none ∧
        dget (_write_entry fd ptr name rtype data (some rd)).ptr ip
          = some (name ++ "." ++ rd)) := by
  constructor
  · intro h
    unfold _write_entry
    dsimp only
    rw [if_neg h]
  · intro h ip hip
    unfold _write_entry
    dsimp only
    rw [if_pos h, hip]
    exact ⟨rfl, dget_dinsert_self ptr ip (name ++ "." ++ rd)⟩

/-- Claim C6, witness at a concrete failing call (type TXT) and a
concrete succeeding call (type a, normalized to A). -/
theorem c6_witness :
    (¬ (pyUpper "TXT" = "A" ∨ pyUpper "TXT" = "AAAA")) ∧
    (_write_entry [] [] "gw" "TXT" "somewhere" (some "example.dn42")).err
      = some DNSErr.invalidRecordType ∧
    (pyUpper "a" = "A" ∨ pyUpper "a" = "AAAA") ∧
    ip_address "172.20.229.1" = some (IPAddr.v4 0xAC14E501) ∧
    (_write_entry [] [] "gw" "a" "172.20.229.1" (some "example.dn42")).err = none ∧
    dget (_write_entry [] [] "gw" "a" "172.20.229.1" (some "example.dn42")).ptr
        (IPAddr.v4 0xAC14E501) = some "gw.example.dn42" :=
  ⟨by decide,
   (c6_reverse_linkage_type_check [] [] "gw" "TXT" "somewhere" "example.dn42").1
     (by decide),
   by decide, by decide,
   ((c6_reverse_linkage_type_check [] [] "gw" "a" "172.20.229.1" "example.dn42").2
     (by decide) (IPAddr.v4 0xAC14E501) (by decide)).1,
   (((c6_reverse_linkage_type_check [] [] "gw" "a" "172.20.229.1" "example.dn42").2
     (by decide) (IPAddr.v4 0xAC14E501) (by decide)).2).trans (by decide)⟩

/-- Claim C10: the record line is appended to the zone output before
reverse-linkage validation and address parsing, so every call — in
particular every call that fails with an invalid-record-type or
address-parse error — has already extended the file by exactly that line;
a failing call leaves the PTR Index untouched. -/
theorem c10_line_written_before_validation (fd : List String)
    (ptr : List (IPAddr × String)) (name rtype data : String)
    (rd : Option String) :
    (_write_entry fd ptr name rtype data rd).fd
      = fd ++ [entry_line name (pyUpper rtype) data] ∧
    ((_write_entry fd ptr name rtype data rd).err.isSome →
      (_write_entry fd ptr name rtype data rd).ptr = ptr) := by
  refine ⟨write_entry_fd fd ptr name rtype data rd, ?_⟩
  unfold _write_entry
  cases rd with
  | none => intro h; simp at h
  | some rdv =>
    dsimp only
    split
    · cases ip_address data with
      | none => intro _; rfl
      | some ip => intro h; simp at h
    · intro _; rfl

/-- Claim C10, witness at a concrete failing call. -/
theorem c10_witness :
    (_write_entry [] [] "gw" "txt" "1.2.3.4" (some "d")).err.isSome = true ∧
    (_write_entry [] [] "gw" "txt" "1.2.3.4" (some "d")).fd
      = [entry_line "gw" (pyUpper "txt") "1.2.3.4"] ∧
    (_write_entry [] [] "gw" "txt" "1.2.3.4" (some "d")).ptr = [] :=
  ⟨by decide,
   ((c10_line_written_before_validation [] [] "gw" "txt" "1.2.3.4" (some "d")).1).trans
     (by decide),
   (c10_line_written_before_validation [] [] "gw" "txt" "1.2.3.4" (some "d")).2
     (by decide)⟩

/-- Claim C4, counterexample: for the block 172.20.229.0/24 with the PTR
Index holding only 172.20.229.1 → gw.example.dn42, the single produced
zone's sole record line carries the address's FULL reverse-pointer string
as owner name, not the origin-relative owner name `"1"` asserted by the
claim. -/
theorem c4_counterexample :
    ((write_ptr4_zone ⟨[(IPAddr.v4 0xAC14E501, "gw.example.dn42")], []⟩
        ⟨0xAC14E500, 24⟩).2).map ZoneFile.lines
      = [["1.229.20.172.in-addr.arpa IN PTR gw.example.dn42.\n"]] ∧
    ("1.229.20.172.in-addr.arpa IN PTR gw.example.dn42.\n" : String)
      ≠ entry_line "1" "PTR" "gw.example.dn42." := by
  decide

/-- Claim C4 as amended: the run produces exactly one zone, named
`229.20.172.in-addr.arpa`, whose sole record line is
`"1.229.20.172.in-addr.arpa IN PTR gw.example.dn42."` — the owner name is
the address's full reverse-pointer string, not its name relative to the
zone origin. -/
theorem c4_single_zone_full_revptr_owner :
    write_ptr4_zone ⟨[(IPAddr.v4 0xAC14E501, "gw.example.dn42")], []⟩
        ⟨0xAC14E500, 24⟩
      = (⟨[(IPAddr.v4 0xAC14E501, "gw.example.dn42")],
          [("229.20.172.in-addr.arpa", "229.20.172.in-addr.arpa.zone")]⟩,
         [⟨"229.20.172.in-addr.arpa",
           [entry_line "1.229.20.172.in-addr.arpa" "PTR" "gw.example.dn42."]⟩]) := by
  decide

/-- Claim C7: for forward domain example.dn42 with the host-record spec
`gw ↦ (ip4=172.20.229.1, ip6=fd00::1)` (which requests reverse linkage to
example.dn42), the builder emits `gw IN A 172.20.229.1` and
`gw IN AAAA fd00::1` into the zone, raises no error, and afterwards the
PTR Index maps 172.20.229.1 and fd00::1 to gw.example.dn42. -/
theorem c7_forward_zone_host_record :
    (write_forward_zone ⟨[], "dn42"⟩ initialState "example.dn42"
        [("gw", RecordData.ansible_host_record "172.20.229.1" "fd00::1")]).2
      = (⟨"example.dn42",
          [entry_line "gw" "A" "172.20.229.1", entry_line "gw" "AAAA" "fd00::1"]⟩,
         none) ∧
    dget (write_forward_zone ⟨[], "dn42"⟩ initialState "example.dn42"
        [("gw", RecordData.ansible_host_record "172.20.229.1" "fd00::1")]).1.ptr_records
        (IPAddr.v4 0xAC14E501) = some "gw.example.dn42" ∧
    dget (write_forward_zone ⟨[], "dn42"⟩ initialState "example.dn42"
        [("gw", RecordData.ansible_host_record "172.20.229.1" "fd00::1")]).1.ptr_records
        (IPAddr.v6 0xfd000000000000000000000000000001) = some "gw.example.dn42" := by
  decide

/-- Claim C2, counterexample: the network address 172.20.229.112 of the
non-aligned block 172.20.229.112/28 has a PTR Index entry and lies inside
the block, yet `ipnet.hosts()` omits it, so both produced zones are
empty: the address appears in no reverse zone at all. -/
theorem c2_counterexample :
    containsIP (IPNet.v4 ⟨0xAC14E570, 28⟩) (IPAddr.v4 0xAC14E570) = true ∧
    dget [(IPAddr.v4 0xAC14E570, "net.example.dn42")] (IPAddr.v4 0xAC14E570)
      = some "net.example.dn42" ∧
    ((write_ptr4_zone ⟨[(IPAddr.v4 0xAC14E570, "net.example.dn42")], []⟩
        ⟨0xAC14E570, 28⟩).2).map ZoneFile.lines = [[], []] := by
  decide

/-- Claim C3, counterexample: for the octet-aligned block 10.0.0.0/24 the
produced zone is named `10.in-addr.arpa` — `lstrip('0.')` removed all
three leading `"0."` components of `0.0.0.10.in-addr.arpa`, not exactly
one as the claim asserts (which would give `0.0.10.in-addr.arpa`). -/
theorem c3_counterexample :
    ((write_ptr4_zone initialState ⟨0x0A000000, 24⟩).2).map ZoneFile.zonename
      = ["10.in-addr.arpa"] ∧
    specStripOneLeadingZeroOctet (v4AddrRevPtr 0x0A000000) = "0.0.10.in-addr.arpa" ∧
    ("10.in-addr.arpa" : String) ≠ "0.0.10.in-addr.arpa" := by
  decide

/-- Claim C9, counterexample: a run that creates two Zones with the same
zone name leaves a single Zone Registry entry, not one entry per Zone
created — the dict assignment overwrites. -/
theorem c9_counterexample :
    (get_zone_file (get_zone_file initialState "example.dn42")
        "example.dn42").namedconf_entries.length = 1 ∧ (1 : Nat) ≠ 2 := by
  decide

/-- Claim C5, counterexample: with address 0.0.0.2 recorded before
0.0.0.1, enumerating the PTR Index over 0.0.0.0/24 yields the entries in
insertion order (2 before 1), which is not ascending address order, and
the produced PTR zone lists the records in that same order. -/
theorem c5_counterexample :
    entriesWithin [(IPAddr.v4 2, "b."), (IPAddr.v4 1, "a.")] (IPNet.v4 ⟨0, 24⟩)
      = [(IPAddr.v4 2, "b."), (IPAddr.v4 1, "a.")] ∧
    ¬ (2 : Nat) ≤ 1 ∧
    ((_write_ptr_zone ⟨[(IPAddr.v4 2, "b."), (IPAddr.v4 1, "a.")], []⟩
        "0.0.0.in-addr.arpa" (IPNet.v4 ⟨0, 24⟩)).2).lines
      = [entry_line "2.0.0.0.in-addr.arpa" "PTR" "b.",
         entry_line "1.0.0.0.in-addr.arpa" "PTR" "a."] := by
  decide

/-! ## The PTR-zone loop in closed form (claims C5, C2, C1) -/

theorem pyUpper_PTR : pyUpper "PTR" = "PTR" := by decide

theorem pyUpper_CNAME : pyUpper "CNAME" = "CNAME" := by decide

/-- With no reverse domain, `_write_entry` only appends the record
line. -/
theorem write_entry_none_fd (fd : List String) (ptr : List (IPAddr × String))
    (name rtype data : String) :
    (_write_entry fd ptr name rtype data none).fd
      = fd ++ [entry_line name (pyUpper rtype) data] := rfl

/-- The `_write_ptr_zone` loop writes one PTR line per in-block index
entry, in index order. -/
theorem ptrZone_foldl_closed (all : List (IPAddr × String)) (net : IPNet) :
    ∀ (l : List (IPAddr × String)) (fd0 : List String),
      l.foldl (ptrZoneStep all net) fd0
        = fd0 ++ (l.filter fun p => containsIP net p.1).map
            (fun p => entry_line (ipRevPtr p.1) "PTR" (ensureDot p.2)) := by
  intro l
  induction l with
  | nil => intro fd0; simp
  | cons hd tl ih =>
    intro fd0
    by_cases hc : containsIP net hd.1 = true
    · simp only [List.foldl_cons, List.filter_cons, hc, if_pos, List.map_cons]
      rw [show ptrZoneStep all net fd0 hd
            = fd0 ++ [entry_line (ipRevPtr hd.1) "PTR" (ensureDot hd.2)] by
          simp [ptrZoneStep, hc, write_entry_none_fd, pyUpper_PTR]]
      rw [ih]
      simp
    · have hc2 : containsIP net hd.1 = false := Bool.eq_false_iff.mpr hc
      simp only [List.foldl_cons, List.filter_cons, hc2]
      rw [show ptrZoneStep all net fd0 hd = fd0 by simp [ptrZoneStep, hc2]]
      exact ih fd0

/-- Claim C5, as amended: enumerating the PTR Index over a NetBlock
yields exactly the indexed entries lying inside the block — every such
entry and no others, each (under the index key-uniqueness invariant) at
most once — but in index-insertion order, not ascending address order;
the PTR-zone writer (and hence an IPv6 reverse zone) emits exactly one
PTR record per enumerated entry, in that same order. -/
theorem c5_entries_enumeration (ptr : List (IPAddr × String)) (net : IPNet)
    (st : DNSState) (zonename : String) (ip6 : IPv6Net) :
    List.Sublist (entriesWithin ptr net) ptr ∧
    (∀ p, p ∈ entriesWithin ptr net ↔ p ∈ ptr ∧ containsIP net p.1 = true) ∧
    ((ptr.map Prod.fst).Nodup → ((entriesWithin ptr net).map Prod.fst).Nodup) ∧
    ((_write_ptr_zone st zonename net).2).lines
      = (entriesWithin st.ptr_records net).map
          (fun p => entry_line (ipRevPtr p.1) "PTR" (ensureDot p.2)) ∧
    ((write_ptr6_zone st ip6).2).lines
      = (entriesWithin st.ptr_records (IPNet.v6 ip6)).map
          (fun p => entry_line (ipRevPtr p.1) "PTR" (ensureDot p.2)) := by
  refine ⟨List.filter_sublist ptr, ?_, ?_, ?_, ?_⟩
  · intro p
    simp [entriesWithin, List.mem_filter]
  · intro h
    exact h.sublist ((List.filter_sublist ptr).map Prod.fst)
  · show (st.ptr_records.foldl (ptrZoneStep st.ptr_records net) []) = _
    rw [ptrZone_foldl_closed]
    simp [entriesWithin]
  · show (st.ptr_records.foldl
        (ptrZoneStep st.ptr_records (IPNet.v6 ip6)) []) = _
    rw [ptrZone_foldl_closed]
    simp [entriesWithin]

/-- Claim C5, witness for the key-uniqueness conjunct at a concrete
index and block. -/
theorem c5_witness :
    (([(IPAddr.v4 1, "a."), (IPAddr.v4 2, "b.")] :
        List (IPAddr × String)).map Prod.fst).Nodup ∧
    ((entriesWithin [(IPAddr.v4 1, "a."), (IPAddr.v4 2, "b.")]
        (IPNet.v4 ⟨0, 24⟩)).map Prod.fst).Nodup :=
  ⟨by decide,
   (c5_entries_enumeration [(IPAddr.v4 1, "a."), (IPAddr.v4 2, "b.")]
       (IPNet.v4 ⟨0, 24⟩) initialState "z" ⟨0, 64⟩).2.2.1 (by decide)⟩

/-! ## Zone Registry (claim C9) -/

theorem any_key_eq_mem {α β : Type} [DecidableEq α]
    (m : List (α × β)) (k : α) :
    (m.any fun p => decide (p.1 = k)) = true ↔ k ∈ m.map Prod.fst := by
  constructor
  · intro h
    rcases List.any_eq_true.mp h with ⟨p, hp, hpk⟩
    exact List.mem_map.mpr ⟨p, hp, of_decide_eq_true hpk⟩
  · intro h
    rcases List.mem_map.mp h with ⟨p, hp, hpk⟩
    exact List.any_eq_true.mpr ⟨p, hp, decide_eq_true hpk⟩

/-- The registry's key sequence after a run of zone creations is the
first-occurrence fold of the created names over the starting keys. -/
theorem createZones_keys (names : List String) :
    ∀ st : DNSState,
      (createZones st names).namedconf_entries.map Prod.fst
        = names.foldl (fun acc n => if n ∈ acc then acc else acc ++ [n])
            (st.namedconf_entries.map Prod.fst) := by
  induction names with
  | nil => intro st; rfl
  | cons n rest ih =>
    intro st
    show (createZones (get_zone_file st n) rest).namedconf_entries.map Prod.fst = _
    rw [ih]
    have hget : (get_zone_file st n).namedconf_entries.map Prod.fst
        = if n ∈ st.namedconf_entries.map Prod.fst
          then st.namedconf_entries.map Prod.fst
          else st.namedconf_entries.map Prod.fst ++ [n] := by
      show (dinsert st.namedconf_entries n (zone_fname n)).map Prod.fst = _
      rw [dinsert_map_fst]
      by_cases hm : n ∈ st.namedconf_entries.map Prod.fst
      · rw [if_pos ((any_key_eq_mem _ _).mpr hm), if_pos hm]
      · rw [if_neg (fun hh => hm ((any_key_eq_mem _ _).mp hh)), if_neg hm]
    rw [hget, List.foldl_cons]

theorem mem_dupdate {α β : Type} [DecidableEq α] (k : α) (v : β) :
    ∀ (m : List (α × β)) (p : α × β), p ∈ dupdate m k v → p ∈ m ∨ p = (k, v) := by
  intro m
  induction m with
  | nil => intro p hp; simp [dupdate] at hp
  | cons hd tl ih =>
    obtain ⟨k0, v0⟩ := hd
    intro p hp
    by_cases hk : k0 = k
    · rw [dupdate, if_pos hk] at hp
      rcases List.mem_cons.mp hp with h | h
      · exact Or.inr h
      · exact Or.inl (List.mem_cons_of_mem _ h)
    · rw [dupdate, if_neg hk] at hp
      rcases List.mem_cons.mp hp with h | h
      · exact Or.inl (h ▸ List.mem_cons_self _ _)
      · rcases ih p h with h2 | h2
        · exact Or.inl (List.mem_cons_of_mem _ h2)
        · exact Or.inr h2

theorem mem_dinsert {α β : Type} [DecidableEq α]
    (m : List (α × β)) (k : α) (v : β) (p : α × β) (hp : p ∈ dinsert m k v) :
    p ∈ m ∨ p = (k, v) := by
  unfold dinsert at hp
  by_cases h : (m.any fun q => decide (q.1 = k)) = true
  · rw [if_pos h] at hp
    exact mem_dupdate k v m p hp
  · rw [if_neg h] at hp
    rcases List.mem_append.mp hp with h2 | h2
    · exact Or.inl h2
    · exact Or.inr (List.mem_singleton.mp h2)

/-- Every registry entry pairs a zone name with its derived file name. -/
theorem createZones_values (names : List String) :
    ∀ st : DNSState,
      (∀ p, p ∈ st.namedconf_entries → p.2 = zone_fname p.1) →
      ∀ p, p ∈ (createZones st names).namedconf_entries → p.2 = zone_fname p.1 := by
  induction names with
  | nil => intro st h; exact h
  | cons n rest ih =>
    intro st h
    refine ih (get_zone_file st n) ?_
    intro p hp
    rcases mem_dinsert st.namedconf_entries n (zone_fname n) p hp with h2 | h2
    · exact h p h2
    · rw [h2]

theorem firstOcc_foldl_nodup :
    ∀ (names : List String) (acc : List String), acc.Nodup →
      (names.foldl (fun acc n => if n ∈ acc then acc else acc ++ [n]) acc).Nodup := by
  intro names
  induction names with
  | nil => intro acc h; exact h
  | cons n rest ih =>
    intro acc h
    show (rest.foldl _ (if n ∈ acc then acc else acc ++ [n])).Nodup
    by_cases hm : n ∈ acc
    · rw [if_pos hm]; exact ih acc h
    · rw [if_neg hm]
      refine ih _ (h.append (List.nodup_singleton n) ?_)
      intro a ha hain
      rw [List.mem_singleton.mp hain] at ha
      exact hm ha

/-- Claim C9, as amended: the Zone Registry holds exactly one entry per
DISTINCT zone name created (a second Zone with an already-registered name
overwrites the entry in place rather than appending), its keys appear in
first-registration order, every entry carries the file name derived from
its zone name, and the rendered registration file is the options stanza
followed by one zone stanza per registry entry in that order. -/
theorem c9_registry_one_entry_per_name (names : List String) (dir : String) :
    ((createZones initialState names).namedconf_entries.map Prod.fst
        = firstOccurrences names) ∧
    ((createZones initialState names).namedconf_entries.map Prod.fst).Nodup ∧
    (∀ p, p ∈ (createZones initialState names).namedconf_entries →
        p.2 = zone_fname p.1) ∧
    write_named_conf dir (createZones initialState names)
      = optionsStanza dir ++ String.join
          ((createZones initialState names).namedconf_entries.map
            fun p => zoneStanza p.1 p.2) := by
  refine ⟨createZones_keys names initialState, ?_, ?_, rfl⟩
  · rw [createZones_keys names initialState]
    exact firstOcc_foldl_nodup names [] List.nodup_nil
  · exact createZones_values names initialState
      (by intro p hp; simp [initialState] at hp)

/-- Claim C9, witness: a run creating the same zone name twice, with the
entry-wise file-name property discharged at the single resulting
entry. -/
theorem c9_witness :
    (("example.dn42", "example.dn42.zone") : String × String)
        ∈ (createZones initialState
            ["example.dn42", "example.dn42"]).namedconf_entries ∧
    (("example.dn42", "example.dn42.zone") : String × String).2
      = zone_fname ("example.dn42", "example.dn42.zone").1 :=
  ⟨by decide,
   (c9_registry_one_entry_per_name ["example.dn42", "example.dn42"] "/d").2.2.1
     ("example.dn42", "example.dn42.zone") (by decide)⟩

/-! ## The RFC 2317 loop in closed form (claims C1, C2) -/

/-- The RFC 2317 loop writes, per hit, one PTR line into the delegated
zone and one CNAME line into the classful zone, pairwise. -/
theorem ptr4_loop_closed (ptr : List (IPAddr × String)) (cz z : String) :
    ∀ (l : List Nat) (acc : List String × List String),
      l.foldl (ptr4LoopStep ptr cz z) acc
        = (acc.1 ++ (l.filterMap fun a => (ptr4Hit ptr a).map fun r => (a, r)).map
              (fun p => entry_line (relevantOctets cz p.1) "PTR" (ensureDot p.2)),
           acc.2 ++ (l.filterMap fun a => (ptr4Hit ptr a).map fun r => (a, r)).map
              (fun p => entry_line (relevantOctets cz p.1) "CNAME"
                 (relevantOctets cz p.1 ++ "." ++ z ++ "."))) := by
  intro l
  induction l with
  | nil => intro acc; simp
  | cons a tl ih =>
    intro acc
    rw [List.foldl_cons, List.filterMap_cons]
    cases hh : ptr4Hit ptr a with
    | none =>
      rw [show ptr4LoopStep ptr cz z acc a = acc by simp [ptr4LoopStep, hh]]
      simp only [Option.map_none']
      exact ih acc
    | some r =>
      rw [show ptr4LoopStep ptr cz z acc a
            = (acc.1 ++ [entry_line (relevantOctets cz a) "PTR" (ensureDot r)],
               acc.2 ++ [entry_line (relevantOctets cz a) "CNAME"
                 (relevantOctets cz a ++ "." ++ z ++ ".")]) by
          simp [ptr4LoopStep, hh, write_entry_none_fd, pyUpper_PTR, pyUpper_CNAME]]
      rw [ih]
      simp only [Option.map_some', List.map_cons]
      simp

/-- The per-block record pair in closed form. -/
theorem ptr4Pair_eq (ptr : List (IPAddr × String)) (ipnet : IPv4Net) :
    ptr4Pair ptr ipnet
      = ((ptr4Hits ptr ipnet).map
           (fun p => entry_line (relevantOctets (classfulZoneName ipnet) p.1)
             "PTR" (ensureDot p.2)),
         (ptr4Hits ptr ipnet).map
           (fun p => entry_line (relevantOctets (classfulZoneName ipnet) p.1)
             "CNAME" (relevantOctets (classfulZoneName ipnet) p.1
               ++ "." ++ v4NetRevPtr ipnet ++ "."))) := by
  unfold ptr4Pair ptr4Hits
  rw [ptr4_loop_closed]
  simp

theorem forall2_map_map {α β γ : Type} (R : β → γ → Prop) (f : α → β) (g : α → γ) :
    ∀ l : List α, (∀ x ∈ l, R (f x) (g x)) → List.Forall₂ R (l.map f) (l.map g) := by
  intro l
  induction l with
  | nil => intro _; exact List.Forall₂.nil
  | cons a tl ih =>
    intro h
    exact List.Forall₂.cons (h a (List.mem_cons_self a tl))
      (ih fun x hx => h x (List.mem_cons_of_mem a hx))

/-- Claim C1: a non-octet-aligned IPv4 block produces exactly two zones —
the delegated zone named by the block's full reverse pointer and the
classful delegation zone named from its classful supernet — and the two
zones' record lines correspond pairwise: the i-th PTR line of the
delegated zone and the i-th CNAME line of the classful zone share one
owner name, and the CNAME's target is that owner name, a dot, the
delegated zone's name, and a trailing dot. -/
theorem c1_rfc2317_two_zones (st : DNSState) (ipnet : IPv4Net)
    (hv : ValidV4Net ipnet) (hna : ipnet.plen % 8 ≠ 0) :
    ∃ Z1 Z2, (write_ptr4_zone st ipnet).2 = [Z1, Z2] ∧
      Z1.zonename = v4NetRevPtr ipnet ∧
      Z2.zonename = classfulZoneName ipnet ∧
      List.Forall₂ (fun lp lc => ∃ owner target,
          lp = entry_line owner "PTR" target ∧
          lc = entry_line owner "CNAME" (owner ++ "." ++ v4NetRevPtr ipnet ++ "."))
        Z1.lines Z2.lines := by
  refine ⟨⟨v4NetRevPtr ipnet, (ptr4Pair st.ptr_records ipnet).1⟩,
          ⟨classfulZoneName ipnet, (ptr4Pair st.ptr_records ipnet).2⟩,
          ?_, rfl, rfl, ?_⟩
  · unfold write_ptr4_zone
    rw [if_neg hna]
  · rw [ptr4Pair_eq]
    exact forall2_map_map _ _ _ (ptr4Hits st.ptr_records ipnet)
      (fun p _ => ⟨relevantOctets (classfulZoneName ipnet) p.1, ensureDot p.2,
        rfl, rfl⟩)

/-- Claim C1, witness at the block 172.20.229.112/28 with one indexed
in-range address. -/
theorem c1_witness :
    ValidV4Net ⟨0xAC14E570, 28⟩ ∧ (28 : Nat) % 8 ≠ 0 ∧
    (∃ Z1 Z2,
      (write_ptr4_zone ⟨[(IPAddr.v4 0xAC14E571, "h.example.dn42")], []⟩
          ⟨0xAC14E570, 28⟩).2 = [Z1, Z2] ∧
      Z1.zonename = v4NetRevPtr ⟨0xAC14E570, 28⟩ ∧
      Z2.zonename = classfulZoneName ⟨0xAC14E570, 28⟩ ∧
      List.Forall₂ (fun lp lc => ∃ owner target,
          lp = entry_line owner "PTR" target ∧
          lc = entry_line owner "CNAME"
            (owner ++ "." ++ v4NetRevPtr ⟨0xAC14E570, 28⟩ ++ "."))
        Z1.lines Z2.lines) :=
  ⟨by decide, by decide,
   c1_rfc2317_two_zones ⟨[(IPAddr.v4 0xAC14E571, "h.example.dn42")], []⟩
     ⟨0xAC14E570, 28⟩ (by decide) (by decide)⟩

theorem ptr4Hit_eq_some (ptr : List (IPAddr × String)) (a : Nat) (r : String) :
    ptr4Hit ptr a = some r
      ↔ (dget ptr (IPAddr.v4 a) = some r ∧ r ≠ "") := by
  unfold ptr4Hit
  cases h : dget ptr (IPAddr.v4 a) with
  | none => simp
  | some tgt =>
    by_cases hr : tgt = ""
    · subst hr
      constructor
      · intro heq; simp at heq
      · intro ⟨heq, hne⟩
        exact absurd (Option.some_inj.mp heq).symm hne
    · simp only [if_neg hr]
      constructor
      · intro heq
        rcases Option.some_inj.mp heq with rfl
        exact ⟨rfl, hr⟩
      · intro ⟨heq, _⟩
        exact heq

/-- The addresses enumerated by `hosts()` for a prefix length of at most
30 are exactly those strictly between the network and broadcast
addresses. -/
theorem mem_hostsV4 (net : IPv4Net) (hp : net.plen ≤ 30) (a : Nat) :
    a ∈ hostsV4 net
      ↔ net.netaddr < a ∧ a < net.netaddr + 2 ^ (32 - net.plen) - 1 := by
  have h31 : net.plen ≠ 31 := by omega
  have h32 : net.plen ≠ 32 := by omega
  unfold hostsV4
  rw [if_neg h31, if_neg h32, List.mem_range'_1]
  have hpow : 2 ≤ 2 ^ (32 - net.plen) := by
    have h1 : 1 ≤ 32 - net.plen := by omega
    calc (2 : Nat) = 2 ^ 1 := rfl
    _ ≤ 2 ^ (32 - net.plen) := Nat.pow_le_pow_right (by norm_num) h1
  omega

/-- Claim C2, as amended: for a non-aligned IPv4 block the two produced
zones carry exactly one PTR line (delegated zone) and one CNAME line
(classful zone) per hit, where the hits are exactly the `hosts()`
addresses whose PTR Index entry is present and non-empty — and for a
prefix length of at most 30 the `hosts()` addresses are exactly those
strictly between the network and broadcast addresses, so an indexed
network or broadcast address receives no record at all. -/
theorem c2_records_per_indexed_host (st : DNSState) (ipnet : IPv4Net)
    (hv : ValidV4Net ipnet) (hna : ipnet.plen % 8 ≠ 0) :
    ∃ Z1 Z2, (write_ptr4_zone st ipnet).2 = [Z1, Z2] ∧
      Z1.lines = (ptr4Hits st.ptr_records ipnet).map
          (fun p => entry_line (relevantOctets (classfulZoneName ipnet) p.1)
            "PTR" (ensureDot p.2)) ∧
      Z2.lines = (ptr4Hits st.ptr_records ipnet).map
          (fun p => entry_line (relevantOctets (classfulZoneName ipnet) p.1)
            "CNAME" (relevantOctets (classfulZoneName ipnet) p.1
              ++ "." ++ v4NetRevPtr ipnet ++ ".")) ∧
      (∀ (a : Nat) (r : String), (a, r) ∈ ptr4Hits st.ptr_records ipnet ↔
          (a ∈ hostsV4 ipnet ∧ dget st.ptr_records (IPAddr.v4 a) = some r ∧
            r ≠ "")) ∧
      (ipnet.plen ≤ 30 → ∀ a : Nat,
          a ∈ hostsV4 ipnet
            ↔ ipnet.netaddr < a ∧ a < ipnet.netaddr + 2 ^ (32 - ipnet.plen) - 1) := by
  refine ⟨⟨v4NetRevPtr ipnet, (ptr4Pair st.ptr_records ipnet).1⟩,
          ⟨classfulZoneName ipnet, (ptr4Pair st.ptr_records ipnet).2⟩,
          ?_, ?_, ?_, ?_, fun hp a => mem_hostsV4 ipnet hp a⟩
  · unfold write_ptr4_zone
    rw [if_neg hna]
  · rw [ptr4Pair_eq]
  · rw [ptr4Pair_eq]
  · intro a r
    constructor
    · intro hmem
      rcases List.mem_filterMap.mp hmem with ⟨a2, ha2, heq⟩
      rcases Option.map_eq_some'.mp heq with ⟨r2, hr2, hpair⟩
      rcases Prod.mk.injEq .. ▸ hpair with ⟨rfl, rfl⟩
      exact ⟨ha2, (ptr4Hit_eq_some st.ptr_records a2 r2).mp hr2⟩
    · intro ⟨hmem, hdget, hne⟩
      exact List.mem_filterMap.mpr ⟨a, hmem,
        by rw [(ptr4Hit_eq_some st.ptr_records a r).mpr ⟨hdget, hne⟩]; rfl⟩

/-- Claim C2, witness at the block 172.20.229.112/28 with one indexed
in-range address. -/
theorem c2_witness :
    ValidV4Net ⟨0xAC14E570, 28⟩ ∧ (28 : Nat) % 8 ≠ 0 ∧
    (∃ Z1 Z2,
      (write_ptr4_zone ⟨[(IPAddr.v4 0xAC14E571, "h.example.dn42")], []⟩
          ⟨0xAC14E570, 28⟩).2 = [Z1, Z2] ∧
      Z1.lines = (ptr4Hits [(IPAddr.v4 0xAC14E571, "h.example.dn42")]
          ⟨0xAC14E570, 28⟩).map
          (fun p => entry_line (relevantOctets (classfulZoneName ⟨0xAC14E570, 28⟩) p.1)
            "PTR" (ensureDot p.2)) ∧
      Z2.lines = (ptr4Hits [(IPAddr.v4 0xAC14E571, "h.example.dn42")]
          ⟨0xAC14E570, 28⟩).map
          (fun p => entry_line (relevantOctets (classfulZoneName ⟨0xAC14E570, 28⟩) p.1)
            "CNAME" (relevantOctets (classfulZoneName ⟨0xAC14E570, 28⟩) p.1
              ++ "." ++ v4NetRevPtr ⟨0xAC14E570, 28⟩ ++ ".")) ∧
      (∀ (a : Nat) (r : String),
          (a, r) ∈ ptr4Hits [(IPAddr.v4 0xAC14E571, "h.example.dn42")]
            ⟨0xAC14E570, 28⟩ ↔
          (a ∈ hostsV4 ⟨0xAC14E570, 28⟩ ∧
            dget [(IPAddr.v4 0xAC14E571, "h.example.dn42")] (IPAddr.v4 a)
              = some r ∧ r ≠ "")) ∧
      ((28 : Nat) ≤ 30 → ∀ a : Nat,
          a ∈ hostsV4 ⟨0xAC14E570, 28⟩
            ↔ 0xAC14E570 < a ∧ a < 0xAC14E570 + 2 ^ (32 - 28) - 1)) :=
  ⟨by decide, by decide,
   c2_records_per_indexed_host ⟨[(IPAddr.v4 0xAC14E571, "h.example.dn42")], []⟩
     ⟨0xAC14E570, 28⟩ (by decide) (by decide)⟩

/-! ## `lstrip('0.')` on reverse-pointer strings (claim C3) -/

theorem lstrip0DotL_zero_dot (l : List Char) :
    lstrip0DotL ('0' :: '.' :: l) = lstrip0DotL l := by
  have h0 : isZeroOrDot '0' = true := rfl
  have hdot : isZeroOrDot '.' = true := rfl
  simp [lstrip0DotL, List.dropWhile_cons, h0, hdot]

theorem lstrip0DotL_no_strip {c : Char} (h : isZeroOrDot c = false)
    (l : List Char) : lstrip0DotL (c :: l) = c :: l := by
  simp [lstrip0DotL, List.dropWhile_cons, h]

theorem stripZeroOctetsL_zero_dot (l : List Char) :
    stripZeroOctetsL ('0' :: '.' :: l) = stripZeroOctetsL l := by
  simp [stripZeroOctetsL]

theorem stripZeroOctetsL_cons_ne {c : Char} (h : c ≠ '0') (l : List Char) :
    stripZeroOctetsL (c :: l) = c :: l := by
  cases l with
  | nil => rfl
  | cons d rest =>
    show (if c = '0' ∧ d = '.' then stripZeroOctetsL rest else c :: d :: rest)
        = c :: d :: rest
    rw [if_neg (fun hcd => h hcd.1)]

set_option maxRecDepth 4096 in
/-- Every decimal octet string is `"0"` or starts with a nonzero
digit. -/
theorem octet_head_fact :
    ∀ m : Nat, m < 256 →
      toString m = "0" ∨ headNotZeroDot (toString m) = true := by
  decide

theorem headNotZeroDot_shape {s : String} (h : headNotZeroDot s = true) :
    ∃ c t, s.data = c :: t ∧ isZeroOrDot c = false := by
  unfold headNotZeroDot at h
  cases hd : s.data with
  | nil => rw [hd] at h; simp at h
  | cons c t =>
    rw [hd] at h
    exact ⟨c, t, rfl, by simpa using h⟩

/-- On a dot-joined component list whose components are each `"0"` or
start with a non-`'0'`/`'.'` character, and whose tail is not stripped by
either function, Python's character-level `lstrip('0.')` agrees with
component-level removal of leading `"0."` octets. -/
theorem strip_eq_on_components :
    ∀ (parts : List String) (tail : List Char),
      (∀ p ∈ parts, p = "0" ∨ headNotZeroDot p = true) →
      lstrip0DotL tail = tail → stripZeroOctetsL tail = tail →
      lstrip0DotL (octetsDots parts tail)
        = stripZeroOctetsL (octetsDots parts tail) := by
  intro parts
  induction parts with
  | nil =>
    intro tail _ h1 h2
    show lstrip0DotL tail = stripZeroOctetsL tail
    rw [h1, h2]
  | cons p ps ih =>
    intro tail hparts h1 h2
    rcases hparts p (List.mem_cons_self p ps) with hz | hh
    · subst hz
      show lstrip0DotL ('0' :: '.' :: octetsDots ps tail)
          = stripZeroOctetsL ('0' :: '.' :: octetsDots ps tail)
      rw [lstrip0DotL_zero_dot, stripZeroOctetsL_zero_dot]
      exact ih tail (fun q hq => hparts q (List.mem_cons_of_mem _ hq)) h1 h2
    · rcases headNotZeroDot_shape hh with ⟨c, t, hdata, hc⟩
      show lstrip0DotL (p.data ++ '.' :: octetsDots ps tail)
          = stripZeroOctetsL (p.data ++ '.' :: octetsDots ps tail)
      rw [hdata, List.cons_append]
      rw [lstrip0DotL_no_strip hc, stripZeroOctetsL_cons_ne
        (fun hc0 => by rw [hc0] at hc; exact absurd hc (by simp [isZeroOrDot]))]

/-- The character sequence of an IPv4 address's reverse pointer, as a
dot-joined component list. -/
theorem v4AddrRevPtr_data (n : Nat) :
    (v4AddrRevPtr n).data
      = octetsDots [toString (n % 256), toString ((n >>> 8) % 256),
          toString ((n >>> 16) % 256), toString ((n >>> 24) % 256)]
          (("in-addr.arpa" : String).data) := by
  have hdot : (("." : String)).data = ['.'] := rfl
  have hsuffix : ((".in-addr.arpa" : String)).data
      = '.' :: (("in-addr.arpa" : String)).data := rfl
  simp [v4AddrRevPtr, v4Octets, joinDots, octetsDots, String.data_append,
    hdot, hsuffix]

/-- On reverse-pointer strings, the code's `lstrip('0.')` removes exactly
the leading run of `"0."` components. -/
theorem pyLstrip_eq_stripZeroOctets_v4 (n : Nat) :
    pyLstrip0Dot (v4AddrRevPtr n) = stripZeroOctets (v4AddrRevPtr n) := by
  unfold pyLstrip0Dot stripZeroOctets
  congr 1
  rw [v4AddrRevPtr_data]
  refine strip_eq_on_components _ _ ?_ (by decide) (by decide)
  intro p hp
  have h256 : ∀ m : Nat, m < 256 →
      toString m = "0" ∨ headNotZeroDot (toString m) = true := octet_head_fact
  simp only [List.mem_cons, List.not_mem_nil, or_false] at hp
  rcases hp with rfl | rfl | rfl | rfl <;>
    exact h256 _ (Nat.mod_lt _ (by norm_num))

/-- Claim C3, as amended: an octet-aligned IPv4 block produces exactly
one zone, and its name is the network address's reverse-pointer string
with ALL leading `"0."` components removed (possibly more than one, e.g.
three of them for 10.0.0.0/24). -/
theorem c3_aligned_strips_all_zero_octets (st : DNSState) (ipnet : IPv4Net)
    (hv : ValidV4Net ipnet) (ha : ipnet.plen % 8 = 0) :
    ∃ z, (write_ptr4_zone st ipnet).2 = [z] ∧
      z.zonename = stripZeroOctets (v4AddrRevPtr ipnet.netaddr) := by
  refine ⟨(_write_ptr_zone st (pyLstrip0Dot (v4AddrRevPtr ipnet.netaddr))
      (IPNet.v4 ipnet)).2, ?_, ?_⟩
  · unfold write_ptr4_zone
    rw [if_pos ha]
  · show pyLstrip0Dot (v4AddrRevPtr ipnet.netaddr) = _
    exact pyLstrip_eq_stripZeroOctets_v4 ipnet.netaddr

/-- Claim C3, witness at the block 10.0.0.0/24. -/
theorem c3_witness :
    ValidV4Net ⟨0x0A000000, 24⟩ ∧ (24 : Nat) % 8 = 0 ∧
    (∃ z, (write_ptr4_zone initialState ⟨0x0A000000, 24⟩).2 = [z] ∧
      z.zonename = stripZeroOctets (v4AddrRevPtr 0x0A000000)) :=
  ⟨by decide, by decide,
   c3_aligned_strips_all_zero_octets initialState ⟨0x0A000000, 24⟩
     (by decide) (by decide)⟩

end MakeDNSRecords
